import Mathlib

/-!
Shallow embedding of the core of the `dhcpserver` repository (Rust) and
proofs about it.  The embedding follows the source files `src/server.rs`,
`src/sources/rest.rs`, `src/sources/mod.rs`, `src/config.rs` and
`src/error.rs`.  External crates (serde_yaml, reqwest, tera, dhcplib) are
collaborators reached only through their interfaces; where one of their
functions decides control flow we model its documented behaviour and say so
in the doc comment.
-/

namespace DhcpServer

/-- Error type, from `src/error.rs` (`enum DhcpError`).  Payloads that wrap
external error values are dropped; `ClientIpAddressMissing` keeps the MAC
address it carries. -/
inductive DhcpError where
  | ioError
  | serdeYamlError
  | serdeJsonError
  | sourceKindUnknown
  | serdeErrorString (s : String)
  | teraError
  | parseIntError
  | reqwestError
  | urlError
  | invalidHeaderName
  | invalidHeaderValue
  | clientIpAddressMissing (mac : List Nat)
  | dhcpLibError
  | customRestTypeError
  | joinError
  | configFileNotFound
  | setLoggerError
  deriving DecidableEq, Repr

instance {ε α : Type} [DecidableEq ε] [DecidableEq α] : DecidableEq (Except ε α) := fun a b =>
  match a, b with
  | .ok x, .ok y =>
    if h : x = y then .isTrue (by rw [h]) else .isFalse (fun hh => h (by cases hh; rfl))
  | .error x, .error y =>
    if h : x = y then .isTrue (by rw [h]) else .isFalse (fun hh => h (by cases hh; rfl))
  | .ok _, .error _ => .isFalse (fun hh => Except.noConfusion hh)
  | .error _, .ok _ => .isFalse (fun hh => Except.noConfusion hh)

/-- An IPv4 address (model of `std::net::Ipv4Addr`), four octets. -/
structure Ipv4 where
  a : Nat
  b : Nat
  c : Nat
  d : Nat
  deriving DecidableEq, Repr

/-- Largest value of a Rust `i64`. -/
def i64Max : Nat := 9223372036854775807

/-- Big-endian byte image of the low 64 bits of `n`, as produced by Rust
`u64::to_be_bytes` / `i64::to_be_bytes` (after two's complement). -/
def beBytes8 (n : Nat) : List Nat :=
  [n / 2 ^ 56 % 256, n / 2 ^ 48 % 256, n / 2 ^ 40 % 256, n / 2 ^ 32 % 256,
   n / 2 ^ 24 % 256, n / 2 ^ 16 % 256, n / 2 ^ 8 % 256, n % 256]

/-- A `serde_yaml::Number` (external type): a non-negative integer stored as
`u64`, a negative integer stored as `i64`, or a float, which we carry as its
IEEE-754 binary64 bit image so that the embedding stays in integer
arithmetic. -/
inductive YamlNumber where
  | posInt (n : Nat)
  | negInt (i : Int)
  | float (bits : Nat)
  deriving DecidableEq, Repr

/-- Floor of the base-2 logarithm, by fuelled recursion so that it reduces
inside the kernel. -/
def log2Fuel : Nat → Nat → Nat
  | 0, _ => 0
  | fuel + 1, n => if n ≤ 1 then 0 else log2Fuel fuel (n / 2) + 1

/-- Floor of the base-2 logarithm. -/
def natLog2 (n : Nat) : Nat := log2Fuel n n

/-- IEEE-754 binary64 bit image of a natural number, i.e. the result of
Rust's `n as f64` for `n : u64` (round to nearest, ties to even), followed by
`f64::to_bits`.  Pure integer arithmetic. -/
def natToF64bits (n : Nat) : Nat :=
  if n = 0 then 0
  else
    let e := natLog2 n
    if e ≤ 52 then
      (1023 + e) * 2 ^ 52 + (n * 2 ^ (52 - e) - 2 ^ 52)
    else
      let shift := e - 52
      let q := n / 2 ^ shift
      let r := n % 2 ^ shift
      let half := 2 ^ (shift - 1)
      let q' := if half < r ∨ (r = half ∧ q % 2 = 1) then q + 1 else q
      if q' = 2 ^ 53 then (1024 + e) * 2 ^ 52
      else (1023 + e) * 2 ^ 52 + (q' - 2 ^ 52)

/-- IEEE-754 binary64 bit image of an integer (`i as f64` + `to_bits`). -/
def intToF64bits (i : Int) : Nat :=
  if 0 ≤ i then natToF64bits i.toNat else 2 ^ 63 + natToF64bits i.natAbs

/-- Model of `serde_yaml::Number::as_i64` (external): a positive integer only when it
fits `i64`, a negative integer always, never a float. -/
def YamlNumber.asI64 : YamlNumber → Option Int
  | .posInt n => if n ≤ i64Max then some (Int.ofNat n) else none
  | .negInt i => some i
  | .float _ => none

/-- Model of `serde_yaml::Number::as_f64` (external) composed with `f64::to_bits`:
`as_f64` succeeds on every number, converting integers with `as f64`. -/
def YamlNumber.asF64bits : YamlNumber → Option Nat
  | .posInt n => some (natToF64bits n)
  | .negInt i => some (intToF64bits i)
  | .float bits => some bits

/-- Model of `serde_yaml::Number::as_u64` (external): only non-negative integers. -/
def YamlNumber.asU64 : YamlNumber → Option Nat
  | .posInt n => some n
  | .negInt _ => none
  | .float _ => none

/-- A `serde_yaml::Value` (external type used pervasively by the source). -/
inductive YamlValue where
  | null
  | bool (b : Bool)
  | number (n : YamlNumber)
  | string (s : String)
  | sequence (l : List YamlValue)
  | mapping (l : List (YamlValue × YamlValue))

/-- UTF-8 encoding of one code point (standard UTF-8, as used by Rust
`str::as_bytes`). -/
def utf8EncodeCodePoint (c : Nat) : List Nat :=
  if c < 0x80 then [c]
  else if c < 0x800 then [0xC0 + c / 64, 0x80 + c % 64]
  else if c < 0x10000 then [0xE0 + c / 4096, 0x80 + c / 64 % 64, 0x80 + c % 64]
  else [0xF0 + c / 262144, 0x80 + c / 4096 % 64, 0x80 + c / 64 % 64, 0x80 + c % 64]

/-- UTF-8 bytes of a string (`str::as_bytes`). -/
def utf8Bytes (s : String) : List Nat :=
  (s.data.map (fun c => utf8EncodeCodePoint c.toNat)).flatten

/-- A DHCP option (model of `dhcplib::option::DhcpOption`, external): the
variants the server core manipulates, plus `other` standing for the
remaining named variants and `unknown` for custom tags. -/
inductive DhcpOption where
  | subnetMask (ip : Ipv4)
  | router (ips : List Ipv4)
  | domainName (s : String)
  | ipAddressLeaseTime (n : Nat)
  | bootFileName (s : String)
  | serverIdentifier (s : String)
  | message (s : String)
  | vendorClassIdentifier (bytes : List Nat)
  | messageType (t : Nat)
  | unknown (tag : Nat) (bytes : List Nat)
  | other (tag : Nat)
  deriving DecidableEq, Repr

/-- DHCP option tag numbers (model of the `dhcplib::option` constants). -/
def DhcpOption.tag : DhcpOption → Nat
  | .subnetMask _ => 1
  | .router _ => 3
  | .domainName _ => 15
  | .ipAddressLeaseTime _ => 51
  | .bootFileName _ => 67
  | .serverIdentifier _ => 54
  | .message _ => 56
  | .vendorClassIdentifier _ => 60
  | .messageType _ => 53
  | .unknown t _ => t
  | .other t => t

def IP_ADDRESS_LEASE_TIME : Nat := 51
def BOOT_FILE_NAME : Nat := 67
def SERVER_IDENTIFIER : Nat := 54
def MESSAGE : Nat := 56
def VENDOR_CLASS_IDENTIFIER : Nat := 60

/-- An ordered option collection (`dhcplib::option::DhcpOptions`). -/
def DhcpOptions := List DhcpOption

/-- Model of `DhcpOptions::upsert`: replace the option holding the same tag, else
append (model of the dhcplib collection's documented upsert-by-tag). -/
def upsert (o : DhcpOption) : List DhcpOption → List DhcpOption
  | [] => [o]
  | x :: xs => if x.tag = o.tag then o :: xs else x :: upsert o xs

/-- Find the option stored under a tag (helper for the typed getters). -/
def findTag (t : Nat) : List DhcpOption → Option DhcpOption
  | [] => none
  | x :: xs => if x.tag = t then some x else findTag t xs

/-- Model of `DhcpOptions::try_u32_option` (external dhcplib getter): succeeds only
when the option stored under the tag carries a u32 value. -/
def tryU32Option (t : Nat) (opts : List DhcpOption) : Except DhcpError Nat :=
  match findTag t opts with
  | some (.ipAddressLeaseTime n) => .ok n
  | some (.messageType n) => .ok n
  | _ => .error .dhcpLibError

/-- Model of `DhcpOptions::try_ascii_option` (external dhcplib getter): succeeds only
when the option stored under the tag carries an ASCII string. -/
def tryAsciiOption (t : Nat) (opts : List DhcpOption) : Except DhcpError String :=
  match findTag t opts with
  | some (.bootFileName s) => .ok s
  | some (.serverIdentifier s) => .ok s
  | some (.message s) => .ok s
  | some (.domainName s) => .ok s
  | _ => .error .dhcpLibError

/-- Model of `DhcpOptions::try_vec_u8_option` (external dhcplib getter). -/
def tryVecU8Option (t : Nat) (opts : List DhcpOption) : Except DhcpError (List Nat) :=
  match findTag t opts with
  | some (.vendorClassIdentifier bs) => .ok bs
  | some (.unknown _ bs) => .ok bs
  | _ => .error .dhcpLibError

/-- Struct `DhcpRestMappingItem` from `src/sources/rest.rs`: a mapping entry's
payload, `{ data, required (default false) }`. -/
structure DhcpRestMappingItem where
  data : YamlValue
  required : Bool

/-- Enum `DhcpRestMappingItemCustomKind` from `src/sources/rest.rs`. -/
inductive DhcpRestMappingItemCustomKind where
  | string
  | bool
  | integer
  | none
  deriving DecidableEq, Repr

/-- Struct `DhcpRestMappingItemCustom` from `src/sources/rest.rs`. -/
structure DhcpRestMappingItemCustom where
  tag : Nat
  kind : DhcpRestMappingItemCustomKind
  item : DhcpRestMappingItem

/-- The custom option encoder: `impl TryInto<DhcpOption> for
DhcpRestMappingItemCustom` in `src/sources/rest.rs` lines 475-500.  The
branch order is the source's: `as_i64`, then `as_f64`, then `as_u64`, then
`CustomRestTypeError`; strings give UTF-8 bytes, null the empty vector,
booleans one byte, sequences and mappings fail. -/
def customTryInto (c : DhcpRestMappingItemCustom) : Except DhcpError DhcpOption :=
  match c.item.data with
  | .null => .ok (.unknown c.tag [])
  | .bool v => .ok (.unknown c.tag (if v then [1] else [0]))
  | .number v =>
    match v.asI64 with
    | some i => .ok (.unknown c.tag (beBytes8 (i % (2 ^ 64 : Int)).toNat))
    | Option.none =>
      match v.asF64bits with
      | some bits => .ok (.unknown c.tag (beBytes8 bits))
      | Option.none =>
        match v.asU64 with
        | some u => .ok (.unknown c.tag (beBytes8 u))
        | Option.none => .error .customRestTypeError
  | .string v => .ok (.unknown c.tag (utf8Bytes v))
  | _ => .error .customRestTypeError

/-! ## Template engine adapter (`template_values`, rest.rs lines 30-50)

The function walks a `serde_yaml::Value`; each string leaf is rendered by
`tera::Tera::one_off` against the context and the rendered text is re-parsed
with `serde_yaml::from_str`.  Sequences recurse into elements, mappings into
values (keys untouched), other leaves pass through.  Both external functions
are parameters here: `render` stands for `tera::Tera::one_off` applied to
the fixed context, `parse` for `serde_yaml::from_str`. -/

mutual

def templateValues (render : String → Except DhcpError String)
    (parse : String → Except DhcpError YamlValue) (value : YamlValue) :
    Except DhcpError YamlValue :=
  match value with
  | .string s => do
      let t ← render s
      parse t
  | .sequence l => do
      let l' ← templateValuesList render parse l
      pure (.sequence l')
  | .mapping l => do
      let l' ← templateValuesPairs render parse l
      pure (.mapping l')
  | v => pure v

def templateValuesList (render : String → Except DhcpError String)
    (parse : String → Except DhcpError YamlValue) (l : List YamlValue) :
    Except DhcpError (List YamlValue) :=
  match l with
  | [] => pure []
  | x :: xs => do
      let x' ← templateValues render parse x
      let xs' ← templateValuesList render parse xs
      pure (x' :: xs')

def templateValuesPairs (render : String → Except DhcpError String)
    (parse : String → Except DhcpError YamlValue) (l : List (YamlValue × YamlValue)) :
    Except DhcpError (List (YamlValue × YamlValue)) :=
  match l with
  | [] => pure []
  | (k, v) :: xs => do
      let v' ← templateValues render parse v
      let xs' ← templateValuesPairs render parse xs
      pure ((k, v') :: xs')

end

/-- Model of `tera::Tera::one_off` on template-free input: a string without
template markers renders to itself verbatim. -/
def renderVerbatim : String → Except DhcpError String := fun s => .ok s

/-- Numeric value of a digit string (stand-in for `str::parse`). -/
def charsToNat? (l : List Char) : Option Nat :=
  if l = [] then none
  else if l.all Char.isDigit then
    some (l.foldl (fun acc c => acc * 10 + (c.toNat - 48)) 0)
  else none

/-- Split a character list at the dots (stand-in for the `.`-separated
parse of a dotted quad). -/
def splitDots (l : List Char) : List (List Char) :=
  match l with
  | [] => [[]]
  | c :: cs =>
    let r := splitDots cs
    if c = '.' then [] :: r
    else
      match r with
      | [] => [[c]]
      | x :: xs => (c :: x) :: xs

/-- Model of `serde_yaml::from_str` on the plain scalars exercised here:
`true`/`false` parse as booleans, `null`/`~`/empty as null, digit strings as
integers, a single-quoted scalar as the inner string, anything else as the
string itself. -/
def yamlParseScalar (s : String) : Except DhcpError YamlValue :=
  if s = "true" then .ok (.bool true)
  else if s = "false" then .ok (.bool false)
  else if s = "null" ∨ s = "~" ∨ s = "" then .ok .null
  else
    match charsToNat? s.data with
    | some n => .ok (.number (.posInt n))
    | none => .ok (.string s)

/-! ## Option mapper (`DhcpRestSourceConfigSchema`, rest.rs lines 310-437) -/

/-- Lookup of the key `"required"` in a `serde_yaml::Mapping`
(`Mapping::get` with a `Value::String` key). -/
def mappingGetRequired : List (YamlValue × YamlValue) → Option YamlValue
  | [] => none
  | (k, v) :: xs =>
    match k with
    | .string s => if s = "required" then some v else mappingGetRequired xs
    | _ => mappingGetRequired xs

/-- Model of `serde_yaml::Value::as_bool` (external). -/
def YamlValue.asBool : YamlValue → Option Bool
  | .bool b => some b
  | _ => none

/-- Embeds `DhcpRestSourceConfigSchema::is_required` (rest.rs lines 311-320): the
value is a mapping literal whose `required` key holds `true`. -/
def isRequired (value : YamlValue) : Bool :=
  match value with
  | .mapping m => (((mappingGetRequired m).getD (.bool false)).asBool).getD false
  | _ => false

/-- Model of `serde_yaml::from_value::<Ipv4Addr>` (external): an IPv4
address deserializes from a dotted-quad string. -/
def parseIpv4 (v : YamlValue) : Except DhcpError Ipv4 :=
  match v with
  | .string s =>
    match splitDots s.data with
    | [a, b, c, d] =>
      match charsToNat? a, charsToNat? b, charsToNat? c, charsToNat? d with
      | some x, some y, some z, some w =>
        if x ≤ 255 ∧ y ≤ 255 ∧ z ≤ 255 ∧ w ≤ 255 then .ok ⟨x, y, z, w⟩
        else .error .serdeYamlError
      | _, _, _, _ => .error .serdeYamlError
    | _ => .error .serdeYamlError
  | _ => .error .serdeYamlError

/-- One iteration of the loop in
`DhcpRestSourceConfigSchema::context_to_result` (rest.rs lines 326-433) on
the state (client IP picked so far, options built so far).  `deser` stands
for the per-name deserialization done by the `to_value!` branch table and,
for unrecognized names, by `DhcpRestMappingItemCustom::try_from` composed
with `TryInto<DhcpOption>`.  Control flow from the source: the `required`
flag is read before templating; a templating error fails everything when
required, else the entry is skipped with a warning; `client_ip_address`
deserialization failure is propagated with `?` unconditionally; any other
deserialization failure again fails everything only when required. -/
def contextStep (render : String → Except DhcpError String)
    (parse : String → Except DhcpError YamlValue)
    (deser : String → YamlValue → Except DhcpError DhcpOption)
    (st : Option Ipv4 × List DhcpOption) (entry : String × YamlValue) :
    Except DhcpError (Option Ipv4 × List DhcpOption) :=
  let required := isRequired entry.2
  match templateValues render parse entry.2 with
  | .error e => if required then .error e else .ok st
  | .ok v =>
    if entry.1 = "client_ip_address" then
      match parseIpv4 v with
      | .error e => .error e
      | .ok ip => .ok (some ip, st.2)
    else
      match deser entry.1 v with
      | .ok o => .ok (st.1, upsert o st.2)
      | .error e => if required then .error e else .ok st

/-- Struct `DhcpSourceResult` from `src/sources/mod.rs`. -/
structure DhcpSourceResult where
  client_ip_address : Option Ipv4
  options : List DhcpOption
  deriving DecidableEq, Repr

/-- Embeds `DhcpRestSourceConfigSchema::context_to_result` (rest.rs lines
322-436): fold the step over the phase mapping, starting from no client IP
and an empty option set. -/
def contextToResult (render : String → Except DhcpError String)
    (parse : String → Except DhcpError YamlValue)
    (deser : String → YamlValue → Except DhcpError DhcpOption)
    (mapping : List (String × YamlValue)) : Except DhcpError DhcpSourceResult := do
  let st ← mapping.foldlM (contextStep render parse deser) (none, [])
  pure ⟨st.1, st.2⟩

/-! ## HTTP query cache (`DhcpRestSourceHttp`, rest.rs lines 100-184)

Time is abstracted to `Nat` ticks; `expiration` is the `Duration` the query
was configured with (`Duration::from_secs_f32`, zero iff the configured
float is zero).  The HTTP transport is abstracted: each access carries the
JSON value the server would answer with. -/

/-- Embeds `DhcpRestSourceHttpCacheItem::expired` (rest.rs lines 105-109):
`SystemTime::now() > self.time + duration`. -/
def cacheItemExpired (time duration now : Nat) : Bool :=
  decide (time + duration < now)

/-- The cache map with (method, URL) keys; entries carry the stored JSON
value and its insertion time. -/
structure DhcpRestSourceHttp (J : Type) where
  cache : List ((String × String) × J × Nat)
  expiration : Nat
  deriving DecidableEq, Repr

/-- Model of `HashMap::get` on the cache. -/
def cacheLookup {J : Type} (key : String × String) :
    List ((String × String) × J × Nat) → Option (J × Nat)
  | [] => none
  | (k, e) :: xs => if k = key then some e else cacheLookup key xs

/-- Model of `HashMap::remove` on the cache. -/
def cacheRemove {J : Type} (key : String × String) :
    List ((String × String) × J × Nat) → List ((String × String) × J × Nat)
  | [] => []
  | (k, e) :: xs => if k = key then cacheRemove key xs else (k, e) :: cacheRemove key xs

/-- Model of `HashMap::insert` on the cache (replaces any entry under the key). -/
def cacheInsert {J : Type} (key : String × String) (e : J × Nat)
    (l : List ((String × String) × J × Nat)) : List ((String × String) × J × Nat) :=
  (key, e) :: cacheRemove key l

/-- Outcome of one `DhcpRestSourceHttp::json` call: the returned value, the
cache state afterwards, and whether a network request was made. -/
structure JsonStepOut (J : Type) where
  value : J
  state : DhcpRestSourceHttp J
  didHttpRequest : Bool
  deriving DecidableEq, Repr

/-- Embeds `DhcpRestSourceHttp::json` (rest.rs lines 152-173).  A present,
non-expired entry is cloned and returned without network I/O; a present but
expired entry is evicted; then the HTTP call happens and the response is
inserted only when `expiration > 0`.  `now` is the current time of the
access, `response` what the HTTP transport would deliver. -/
def DhcpRestSourceHttp.json {J : Type} (st : DhcpRestSourceHttp J)
    (method url : String) (now : Nat) (response : J) : JsonStepOut J :=
  let key := (method, url)
  match cacheLookup key st.cache with
  | some (data, time) =>
    if ¬ cacheItemExpired time st.expiration now then
      { value := data, state := st, didHttpRequest := false }
    else
      let st1 : DhcpRestSourceHttp J := { st with cache := cacheRemove key st.cache }
      let st2 : DhcpRestSourceHttp J :=
        if 0 < st.expiration then { st1 with cache := cacheInsert key (response, now) st1.cache }
        else st1
      { value := response, state := st2, didHttpRequest := true }
  | none =>
    let st2 : DhcpRestSourceHttp J :=
      if 0 < st.expiration then { st with cache := cacheInsert key (response, now) st.cache }
      else st
    { value := response, state := st2, didHttpRequest := true }

/-- A sequence of `json` calls: final state plus the per-call
network-request flags, in order. -/
def runJson {J : Type} (st : DhcpRestSourceHttp J) :
    List ((String × String) × Nat × J) → DhcpRestSourceHttp J × List Bool
  | [] => (st, [])
  | ((method, url), now, resp) :: rest =>
    let out := st.json method url now resp
    let (fin, flags) := runJson out.state rest
    (fin, out.didHttpRequest :: flags)

/-! ## REST query configuration and HTTP client init (rest.rs lines
186-239) -/

/-- Struct `DhcpRestConfigSchemaQuery` (rest.rs lines 186-199), the per-query
configuration.  The serde default for `ssl_verify` is the function
`DhcpRestConfigSchemaQuery::ssl_verify`, embedded below. -/
structure DhcpRestConfigSchemaQuery where
  url : String
  name : String
  ssl_verify : Bool
  headers : Option (List (String × String))
  deriving DecidableEq, Repr

/-- Embeds `DhcpRestConfigSchemaQuery::ssl_verify` (rest.rs line 202): the serde
default used when the config omits `ssl_verify`. -/
def sslVerifyDefault : Bool := true

/-- The TLS-relevant part of a built `reqwest::Client`: the flag passed to
`ClientBuilder::danger_accept_invalid_certs`. -/
structure HttpClientTls where
  danger_accept_invalid_certs : Bool
  deriving DecidableEq, Repr

/-- Embeds `DhcpRestConfigSchemaQuery::init` (rest.rs lines 204-210): the client is
built with `danger_accept_invalid_certs(self.ssl_verify)` — the field value
is passed through unnegated. -/
def DhcpRestConfigSchemaQuery.init (q : DhcpRestConfigSchemaQuery) : HttpClientTls :=
  { danger_accept_invalid_certs := q.ssl_verify }

/-- Model of reqwest TLS semantics (external): a client rejects invalid
certificates exactly when `danger_accept_invalid_certs` is false. -/
def rejectsInvalidCerts (c : HttpClientTls) : Bool :=
  ! c.danger_accept_invalid_certs

/-! ## Message engine (`Server::process`, server.rs lines 78-199)

A source is represented by the outcomes of its calls for the packet being
processed (`DhcpHostSource` in `src/sources/mod.rs`): the lifecycle hooks
`packet_received`/`packet_sending`/`packet_sent` (whose default
implementations always return `Ok(())` and are not overridden by the only
source kind, `DhcpRestSource`) and the five phase methods.  The engine's
run is recorded as a trace of events so ordering facts can be stated. -/

/-- Outcomes of one source's calls while handling a single packet. -/
structure SourceBehavior where
  id : Nat
  packetReceived : Except DhcpError Unit
  offer : Except DhcpError (Option DhcpSourceResult)
  reserve : Except DhcpError (Option DhcpSourceResult)
  inform : Except DhcpError (Option DhcpSourceResult)
  release : Except DhcpError Unit
  decline : Except DhcpError Unit
  packetSending : Except DhcpError Unit
  packetSent : Except DhcpError Unit
  deriving DecidableEq, Repr

/-- The inbound packet data the engine consults: the client hardware
address (6 bytes), used in the `ClientIpAddressMissing` error. -/
structure InPacket where
  mac : List Nat
  deriving DecidableEq, Repr

/-- An outgoing packet, as constructed by the `into_offer` / `into_ack` /
`into_nak` builders of dhcplib (server.rs lines 99-104, 126-133, 147-152,
164-170).  The INFORM ACK takes no lease time. -/
inductive OutPacket where
  | offer (leaseTime : Nat) (clientIp : Ipv4) (bootFile : Option String)
      (message : Option String) (options : List DhcpOption)
  | ack (leaseTime : Nat) (clientIp : Ipv4) (bootFile : Option String)
      (serverId : Option String) (message : Option String)
      (vendorClass : Option (List Nat)) (options : List DhcpOption)
  | informAck (clientIp : Ipv4) (bootFile : Option String)
      (serverId : Option String) (message : Option String)
      (vendorClass : Option (List Nat)) (options : List DhcpOption)
  | nak
  deriving DecidableEq, Repr

/-- Observable events of one `Server::process` run: lifecycle calls on a
source (by its id), a datagram handed to `Server::send`, and the two log
lines of the skip paths. -/
inductive SrvEvent where
  | received (i : Nat)
  | sending (i : Nat)
  | sent (i : Nat)
  | releaseCalled (i : Nat)
  | declineCalled (i : Nat)
  | udpSend (p : OutPacket)
  | errorLogged (i : Nat)
  | notFoundLogged (i : Nat)
  deriving DecidableEq, Repr

/-- The packets handed to `Server::send` within a trace. -/
def sentPackets (evs : List SrvEvent) : List OutPacket :=
  evs.filterMap fun e =>
    match e with
    | .udpSend p => some p
    | _ => none

/-- OFFER construction for the Discover branch (server.rs lines 96-104):
the client IP must be present (`ClientIpAddressMissing` otherwise), the
lease time must decode as u32 (`?`), boot file and message are optional. -/
def composeOffer (mac : List Nat) (result : DhcpSourceResult) : Except DhcpError OutPacket :=
  match result.client_ip_address with
  | none => .error (.clientIpAddressMissing mac)
  | some ip => do
    let lease ← tryU32Option IP_ADDRESS_LEASE_TIME result.options
    pure (.offer lease ip (tryAsciiOption BOOT_FILE_NAME result.options).toOption
      (tryAsciiOption MESSAGE result.options).toOption result.options)

/-- ACK construction for the Request branch (server.rs lines 123-133). -/
def composeAck (mac : List Nat) (result : DhcpSourceResult) : Except DhcpError OutPacket :=
  match result.client_ip_address with
  | none => .error (.clientIpAddressMissing mac)
  | some ip => do
    let lease ← tryU32Option IP_ADDRESS_LEASE_TIME result.options
    pure (.ack lease ip (tryAsciiOption BOOT_FILE_NAME result.options).toOption
      (tryAsciiOption SERVER_IDENTIFIER result.options).toOption
      (tryAsciiOption MESSAGE result.options).toOption
      (tryVecU8Option VENDOR_CLASS_IDENTIFIER result.options).toOption result.options)

/-- ACK construction for the Inform branch (server.rs lines 161-170): same
as the Request ACK but without a lease time. -/
def composeInformAck (mac : List Nat) (result : DhcpSourceResult) : Except DhcpError OutPacket :=
  match result.client_ip_address with
  | none => .error (.clientIpAddressMissing mac)
  | some ip =>
    pure (.informAck ip (tryAsciiOption BOOT_FILE_NAME result.options).toOption
      (tryAsciiOption SERVER_IDENTIFIER result.options).toOption
      (tryAsciiOption MESSAGE result.options).toOption
      (tryVecU8Option VENDOR_CLASS_IDENTIFIER result.options).toOption result.options)

/-- The shared shape of the three query-phase loops in `Server::process`
(Discover: lines 90-115, Request: lines 117-154, Inform: lines 155-182).
Per source: `packet_received` is called (`?` aborts on error); the phase
method is called; `Ok(Some(result))` composes the response (`?` aborts on
error), calls `packet_sending` (`?`), hands the packet to `Server::send`,
calls `packet_sent` (`?`) and stops; `Ok(None)` and `Err` log and continue.
When the loop falls through, `tail` happens — `[udpSend nak]` for the
Request branch (lines 146-153), nothing for Discover and Inform. -/
def queryLoop (phase : SourceBehavior → Except DhcpError (Option DhcpSourceResult))
    (compose : DhcpSourceResult → Except DhcpError OutPacket) (tail : List SrvEvent) :
    List SourceBehavior → List SrvEvent × Except DhcpError Unit
  | [] => (tail, .ok ())
  | s :: rest =>
    match s.packetReceived with
    | .error e => ([.received s.id], .error e)
    | .ok _ =>
      match phase s with
      | .ok (some result) =>
        match compose result with
        | .error e => ([.received s.id], .error e)
        | .ok pkt =>
          match s.packetSending with
          | .error e => ([.received s.id, .sending s.id], .error e)
          | .ok _ =>
            match s.packetSent with
            | .error e => ([.received s.id, .sending s.id, .udpSend pkt], .error e)
            | .ok _ => ([.received s.id, .sending s.id, .udpSend pkt, .sent s.id], .ok ())
      | .ok none =>
        let (evs, res) := queryLoop phase compose tail rest
        (.received s.id :: .notFoundLogged s.id :: evs, res)
      | .error _ =>
        let (evs, res) := queryLoop phase compose tail rest
        (.received s.id :: .errorLogged s.id :: evs, res)

/-- Embeds `Server::process`, Discover branch (server.rs lines 90-115). -/
def processDiscover (sources : List SourceBehavior) (p : InPacket) :
    List SrvEvent × Except DhcpError Unit :=
  queryLoop (fun s => s.offer) (composeOffer p.mac) [] sources

/-- Embeds `Server::process`, Request branch (server.rs lines 117-154): falling
through the loop sends a NAK. -/
def processRequest (sources : List SourceBehavior) (p : InPacket) :
    List SrvEvent × Except DhcpError Unit :=
  queryLoop (fun s => s.reserve) (composeAck p.mac) [.udpSend .nak] sources

/-- Embeds `Server::process`, Inform branch (server.rs lines 155-182). -/
def processInform (sources : List SourceBehavior) (p : InPacket) :
    List SrvEvent × Except DhcpError Unit :=
  queryLoop (fun s => s.inform) (composeInformAck p.mac) [] sources

/-- Embeds `Server::process`, Release branch (server.rs lines 183-188): per source
`packet_received` then `release`, each with `?` — an error aborts the whole
loop. -/
def processRelease (sources : List SourceBehavior) :
    List SrvEvent × Except DhcpError Unit :=
  match sources with
  | [] => ([], .ok ())
  | s :: rest =>
    match s.packetReceived with
    | .error e => ([.received s.id], .error e)
    | .ok _ =>
      match s.release with
      | .error e => ([.received s.id, .releaseCalled s.id], .error e)
      | .ok _ =>
        let (evs, res) := processRelease rest
        (.received s.id :: .releaseCalled s.id :: evs, res)

/-- Embeds `Server::process`, Decline branch (server.rs lines 189-194). -/
def processDecline (sources : List SourceBehavior) :
    List SrvEvent × Except DhcpError Unit :=
  match sources with
  | [] => ([], .ok ())
  | s :: rest =>
    match s.packetReceived with
    | .error e => ([.received s.id], .error e)
    | .ok _ =>
      match s.decline with
      | .error e => ([.received s.id, .declineCalled s.id], .error e)
      | .ok _ =>
        let (evs, res) := processDecline rest
        (.received s.id :: .declineCalled s.id :: evs, res)

/-- The two events a skipped source contributes in a query-phase loop. -/
def skipEvents (phase : SourceBehavior → Except DhcpError (Option DhcpSourceResult))
    (sources : List SourceBehavior) : List SrvEvent :=
  (sources.map fun t =>
    [SrvEvent.received t.id,
     match phase t with
     | .ok none => SrvEvent.notFoundLogged t.id
     | _ => SrvEvent.errorLogged t.id]).flatten

/-! ## Helper lemmas shared by the claim theorems -/

/-- Whether a phase call produced `Ok(Some(result))`. -/
def returnsSome (x : Except DhcpError (Option DhcpSourceResult)) : Bool :=
  match x with
  | .ok (some _) => true
  | _ => false

/-- The events contributed by the skipped sources contain no datagram. -/
theorem sentPackets_skipEvents (phase : SourceBehavior → Except DhcpError (Option DhcpSourceResult))
    (l : List SourceBehavior) : sentPackets (skipEvents phase l) = [] := by
  induction l with
  | nil => rfl
  | cons t ts ih =>
    cases hp : phase t with
    | ok o =>
      cases o with
      | some r =>
        simp only [skipEvents, sentPackets, hp, List.map_cons, List.flatten_cons,
          List.filterMap_append, List.filterMap] at ih ⊢
        simpa [sentPackets] using ih
      | none =>
        simp only [skipEvents, sentPackets, hp, List.map_cons, List.flatten_cons,
          List.filterMap_append, List.filterMap] at ih ⊢
        simpa [sentPackets] using ih
    | error e =>
      simp only [skipEvents, sentPackets, hp, List.map_cons, List.flatten_cons,
        List.filterMap_append, List.filterMap] at ih ⊢
      simpa [sentPackets] using ih

/-- Lemma: `sentPackets` distributes over trace concatenation. -/
theorem sentPackets_append (a b : List SrvEvent) :
    sentPackets (a ++ b) = sentPackets a ++ sentPackets b := by
  simp [sentPackets]

/-- A query-phase loop walks past a prefix of sources whose hooks succeed
and that do not return `Ok(Some(_))`, logging and continuing. -/
theorem queryLoop_skip (phase : SourceBehavior → Except DhcpError (Option DhcpSourceResult))
    (compose : DhcpSourceResult → Except DhcpError OutPacket) (tail : List SrvEvent)
    (pre rest : List SourceBehavior)
    (h : ∀ t ∈ pre, t.packetReceived = .ok () ∧ returnsSome (phase t) = false) :
    queryLoop phase compose tail (pre ++ rest) =
      (skipEvents phase pre ++ (queryLoop phase compose tail rest).1,
       (queryLoop phase compose tail rest).2) := by
  induction pre with
  | nil => simp [skipEvents]
  | cons s pre ih =>
    obtain ⟨h1, h2⟩ := h s (List.mem_cons_self s pre)
    have ih' := ih (fun t ht => h t (List.mem_cons_of_mem _ ht))
    cases hp : phase s with
    | ok o =>
      cases o with
      | some r => rw [hp] at h2; simp [returnsSome] at h2
      | none => simp [queryLoop, h1, hp, ih', skipEvents]
    | error e => simp [queryLoop, h1, hp, ih', skipEvents]

/-- Trace prefix of a run of the Release branch over sources that all
succeed. -/
def releaseEvents (l : List SourceBehavior) : List SrvEvent :=
  (l.map fun t => [SrvEvent.received t.id, SrvEvent.releaseCalled t.id]).flatten

/-- Trace prefix of a run of the Decline branch over sources that all
succeed. -/
def declineEvents (l : List SourceBehavior) : List SrvEvent :=
  (l.map fun t => [SrvEvent.received t.id, SrvEvent.declineCalled t.id]).flatten

/-- The Release branch walks past a prefix of fully-succeeding sources. -/
theorem processRelease_skip (pre rest : List SourceBehavior)
    (h : ∀ t ∈ pre, t.packetReceived = .ok () ∧ t.release = .ok ()) :
    processRelease (pre ++ rest) =
      (releaseEvents pre ++ (processRelease rest).1, (processRelease rest).2) := by
  induction pre with
  | nil => simp [releaseEvents]
  | cons s pre ih =>
    obtain ⟨h1, h2⟩ := h s (List.mem_cons_self s pre)
    have ih' := ih (fun t ht => h t (List.mem_cons_of_mem _ ht))
    simp [processRelease, h1, h2, ih', releaseEvents]

/-- The Decline branch walks past a prefix of fully-succeeding sources. -/
theorem processDecline_skip (pre rest : List SourceBehavior)
    (h : ∀ t ∈ pre, t.packetReceived = .ok () ∧ t.decline = .ok ()) :
    processDecline (pre ++ rest) =
      (declineEvents pre ++ (processDecline rest).1, (processDecline rest).2) := by
  induction pre with
  | nil => simp [declineEvents]
  | cons s pre ih =>
    obtain ⟨h1, h2⟩ := h s (List.mem_cons_self s pre)
    have ih' := ih (fun t ht => h t (List.mem_cons_of_mem _ ht))
    simp [processDecline, h1, h2, ih', declineEvents]

/-! ## Claim theorems -/

/-- C1: the claim says the HTTP client rejects invalid TLS certificates
exactly when `ssl_verify` is true, with the default being true.  The code
passes `ssl_verify` unnegated into
`ClientBuilder::danger_accept_invalid_certs` (rest.rs line 206), so the
default configuration accepts invalid certificates and `ssl_verify=false`
is the one that verifies — the opposite of the claim.  This theorem
evaluates the code at both flag values. -/
theorem c1_ssl_verify_inverted :
    sslVerifyDefault = true
    ∧ rejectsInvalidCerts (DhcpRestConfigSchemaQuery.init
        { url := "https://a", name := "q", ssl_verify := sslVerifyDefault, headers := none }) = false
    ∧ rejectsInvalidCerts (DhcpRestConfigSchemaQuery.init
        { url := "https://a", name := "q", ssl_verify := false, headers := none }) = true :=
  ⟨rfl, rfl, rfl⟩

/-- C5: evaluation of the custom encoder at the failing input.  For a
custom option whose data is the unsigned integer 10^19 (above `i64::MAX`
but within `u64`), the encoder takes the `as_f64` branch — `as_f64`
succeeds on every `serde_yaml` number and is tested before `as_u64`, whose
branch is unreachable — and emits the IEEE-754 big-endian image of
`10^19 as f64`, not the claimed 8-byte big-endian `u64` image. -/
theorem c5_custom_encoder_unsigned_eval :
    customTryInto { tag := 200, kind := .integer,
                    item := { data := .number (.posInt 10000000000000000000), required := false } }
      = .ok (.unknown 200 [0x43, 0xE1, 0x58, 0xE4, 0x60, 0x91, 0x3D, 0x00])
    ∧ beBytes8 10000000000000000000 = [0x8A, 0xC7, 0x23, 0x04, 0x89, 0xE8, 0x00, 0x00]
    ∧ ([0x43, 0xE1, 0x58, 0xE4, 0x60, 0x91, 0x3D, 0x00] : List Nat)
        ≠ [0x8A, 0xC7, 0x23, 0x04, 0x89, 0xE8, 0x00, 0x00] :=
  ⟨rfl, rfl, by decide⟩

/-- C2: a REQUEST for which no configured source returns `Some(result)`
produces exactly one NAK handed to `Server::send`; a DISCOVER or INFORM in
the same situation produces no datagram at all (the loop falls through and
the handler returns `Ok`).  The hypothesis that every source's
`packet_received` hook returns `Ok` holds for every configurable source:
the only source kind (`rest`) keeps the trait's default hooks, which always
return `Ok(())`. -/
theorem c2_request_nak_discover_inform_drop :
    (∀ (sources : List SourceBehavior) (p : InPacket),
      (∀ t ∈ sources, t.packetReceived = .ok () ∧ returnsSome t.reserve = false) →
      sentPackets (processRequest sources p).1 = [.nak]
        ∧ (processRequest sources p).2 = .ok ())
    ∧ (∀ (sources : List SourceBehavior) (p : InPacket),
      (∀ t ∈ sources, t.packetReceived = .ok () ∧ returnsSome t.offer = false) →
      sentPackets (processDiscover sources p).1 = []
        ∧ (processDiscover sources p).2 = .ok ())
    ∧ (∀ (sources : List SourceBehavior) (p : InPacket),
      (∀ t ∈ sources, t.packetReceived = .ok () ∧ returnsSome t.inform = false) →
      sentPackets (processInform sources p).1 = []
        ∧ (processInform sources p).2 = .ok ()) := by
  refine ⟨?_, ?_, ?_⟩
  · intro sources p h
    have hq := queryLoop_skip (fun t => t.reserve) (composeAck p.mac) [.udpSend .nak]
      sources [] h
    rw [List.append_nil] at hq
    simp only [processRequest]
    rw [hq]
    exact ⟨by rw [sentPackets_append, sentPackets_skipEvents]; rfl, rfl⟩
  · intro sources p h
    have hq := queryLoop_skip (fun t => t.offer) (composeOffer p.mac) [] sources [] h
    rw [List.append_nil] at hq
    simp only [processDiscover]
    rw [hq]
    exact ⟨by rw [sentPackets_append, sentPackets_skipEvents]; rfl, rfl⟩
  · intro sources p h
    have hq := queryLoop_skip (fun t => t.inform) (composeInformAck p.mac) [] sources [] h
    rw [List.append_nil] at hq
    simp only [processInform]
    rw [hq]
    exact ⟨by rw [sentPackets_append, sentPackets_skipEvents]; rfl, rfl⟩

/-- C3: in each of the three query phases, when the first source returning
`Ok(Some(result))` delivers a result without a client IP (while options are
present), the handler aborts with `ClientIpAddressMissing` carrying the
packet's hardware address and no datagram is handed to `Server::send`. -/
theorem c3_client_ip_missing_fails_packet :
    (∀ (pre : List SourceBehavior) (s : SourceBehavior) (post : List SourceBehavior)
        (p : InPacket) (r : DhcpSourceResult),
      (∀ t ∈ pre, t.packetReceived = .ok () ∧ returnsSome t.offer = false) →
      s.packetReceived = .ok () → s.offer = .ok (some r) →
      r.client_ip_address = none → r.options ≠ [] →
      (processDiscover (pre ++ s :: post) p).2 = .error (.clientIpAddressMissing p.mac)
        ∧ sentPackets (processDiscover (pre ++ s :: post) p).1 = [])
    ∧ (∀ (pre : List SourceBehavior) (s : SourceBehavior) (post : List SourceBehavior)
        (p : InPacket) (r : DhcpSourceResult),
      (∀ t ∈ pre, t.packetReceived = .ok () ∧ returnsSome t.reserve = false) →
      s.packetReceived = .ok () → s.reserve = .ok (some r) →
      r.client_ip_address = none → r.options ≠ [] →
      (processRequest (pre ++ s :: post) p).2 = .error (.clientIpAddressMissing p.mac)
        ∧ sentPackets (processRequest (pre ++ s :: post) p).1 = [])
    ∧ (∀ (pre : List SourceBehavior) (s : SourceBehavior) (post : List SourceBehavior)
        (p : InPacket) (r : DhcpSourceResult),
      (∀ t ∈ pre, t.packetReceived = .ok () ∧ returnsSome t.inform = false) →
      s.packetReceived = .ok () → s.inform = .ok (some r) →
      r.client_ip_address = none → r.options ≠ [] →
      (processInform (pre ++ s :: post) p).2 = .error (.clientIpAddressMissing p.mac)
        ∧ sentPackets (processInform (pre ++ s :: post) p).1 = []) := by
  refine ⟨?_, ?_, ?_⟩
  · intro pre s post p r hpre hrecv hph hip _
    have hq := queryLoop_skip (fun t => t.offer) (composeOffer p.mac) [] pre (s :: post) hpre
    have hcomp : composeOffer p.mac r = .error (.clientIpAddressMissing p.mac) := by
      simp [composeOffer, hip]
    have hloop : queryLoop (fun t => t.offer) (composeOffer p.mac) [] (s :: post)
        = ([.received s.id], .error (.clientIpAddressMissing p.mac)) := by
      simp [queryLoop, hrecv, hph, hcomp]
    simp only [processDiscover]
    rw [hq, hloop]
    exact ⟨rfl, by rw [sentPackets_append, sentPackets_skipEvents]; rfl⟩
  · intro pre s post p r hpre hrecv hph hip _
    have hq := queryLoop_skip (fun t => t.reserve) (composeAck p.mac) [.udpSend .nak]
      pre (s :: post) hpre
    have hcomp : composeAck p.mac r = .error (.clientIpAddressMissing p.mac) := by
      simp [composeAck, hip]
    have hloop : queryLoop (fun t => t.reserve) (composeAck p.mac) [.udpSend .nak] (s :: post)
        = ([.received s.id], .error (.clientIpAddressMissing p.mac)) := by
      simp [queryLoop, hrecv, hph, hcomp]
    simp only [processRequest]
    rw [hq, hloop]
    exact ⟨rfl, by rw [sentPackets_append, sentPackets_skipEvents]; rfl⟩
  · intro pre s post p r hpre hrecv hph hip _
    have hq := queryLoop_skip (fun t => t.inform) (composeInformAck p.mac) [] pre (s :: post) hpre
    have hcomp : composeInformAck p.mac r = .error (.clientIpAddressMissing p.mac) := by
      simp [composeInformAck, hip]
    have hloop : queryLoop (fun t => t.inform) (composeInformAck p.mac) [] (s :: post)
        = ([.received s.id], .error (.clientIpAddressMissing p.mac)) := by
      simp [queryLoop, hrecv, hph, hcomp]
    simp only [processInform]
    rw [hq, hloop]
    exact ⟨rfl, by rw [sentPackets_append, sentPackets_skipEvents]; rfl⟩

/-- C7: in each query phase the sources are tried in configuration order:
every source before the winner is called (`packet_received` plus its phase
method) and logged — `not found` on `Ok(None)`, the error message on
`Err` — with iteration continuing; the first source returning
`Ok(Some(result))` has the response composed and sent through
`packet_sending`, `Server::send`, `packet_sent` on that same source, and
iteration stops: sources after it contribute no events. -/
theorem c7_first_some_wins_after_skips :
    (∀ (pre : List SourceBehavior) (s : SourceBehavior) (post : List SourceBehavior)
        (p : InPacket) (r : DhcpSourceResult) (pkt : OutPacket),
      (∀ t ∈ pre, t.packetReceived = .ok () ∧ returnsSome t.offer = false) →
      s.packetReceived = .ok () → s.offer = .ok (some r) →
      composeOffer p.mac r = .ok pkt → s.packetSending = .ok () → s.packetSent = .ok () →
      processDiscover (pre ++ s :: post) p =
        (skipEvents (fun t => t.offer) pre ++
          [.received s.id, .sending s.id, .udpSend pkt, .sent s.id], .ok ()))
    ∧ (∀ (pre : List SourceBehavior) (s : SourceBehavior) (post : List SourceBehavior)
        (p : InPacket) (r : DhcpSourceResult) (pkt : OutPacket),
      (∀ t ∈ pre, t.packetReceived = .ok () ∧ returnsSome t.reserve = false) →
      s.packetReceived = .ok () → s.reserve = .ok (some r) →
      composeAck p.mac r = .ok pkt → s.packetSending = .ok () → s.packetSent = .ok () →
      processRequest (pre ++ s :: post) p =
        (skipEvents (fun t => t.reserve) pre ++
          [.received s.id, .sending s.id, .udpSend pkt, .sent s.id], .ok ()))
    ∧ (∀ (pre : List SourceBehavior) (s : SourceBehavior) (post : List SourceBehavior)
        (p : InPacket) (r : DhcpSourceResult) (pkt : OutPacket),
      (∀ t ∈ pre, t.packetReceived = .ok () ∧ returnsSome t.inform = false) →
      s.packetReceived = .ok () → s.inform = .ok (some r) →
      composeInformAck p.mac r = .ok pkt → s.packetSending = .ok () → s.packetSent = .ok () →
      processInform (pre ++ s :: post) p =
        (skipEvents (fun t => t.inform) pre ++
          [.received s.id, .sending s.id, .udpSend pkt, .sent s.id], .ok ())) := by
  refine ⟨?_, ?_, ?_⟩
  · intro pre s post p r pkt hpre hrecv hph hcomp hsending hsent
    have hq := queryLoop_skip (fun t => t.offer) (composeOffer p.mac) [] pre (s :: post) hpre
    have hloop : queryLoop (fun t => t.offer) (composeOffer p.mac) [] (s :: post)
        = ([.received s.id, .sending s.id, .udpSend pkt, .sent s.id], .ok ()) := by
      simp [queryLoop, hrecv, hph, hcomp, hsending, hsent]
    simp only [processDiscover]
    rw [hq, hloop]
  · intro pre s post p r pkt hpre hrecv hph hcomp hsending hsent
    have hq := queryLoop_skip (fun t => t.reserve) (composeAck p.mac) [.udpSend .nak]
      pre (s :: post) hpre
    have hloop : queryLoop (fun t => t.reserve) (composeAck p.mac) [.udpSend .nak] (s :: post)
        = ([.received s.id, .sending s.id, .udpSend pkt, .sent s.id], .ok ()) := by
      simp [queryLoop, hrecv, hph, hcomp, hsending, hsent]
    simp only [processRequest]
    rw [hq, hloop]
  · intro pre s post p r pkt hpre hrecv hph hcomp hsending hsent
    have hq := queryLoop_skip (fun t => t.inform) (composeInformAck p.mac) [] pre (s :: post) hpre
    have hloop : queryLoop (fun t => t.inform) (composeInformAck p.mac) [] (s :: post)
        = ([.received s.id, .sending s.id, .udpSend pkt, .sent s.id], .ok ()) := by
      simp [queryLoop, hrecv, hph, hcomp, hsending, hsent]
    simp only [processInform]
    rw [hq, hloop]

/-- C10: for DISCOVER and REQUEST, once a source has returned a result with
a client IP, response construction also demands a lease-time option
decodable as u32 (`try_u32_option(IP_ADDRESS_LEASE_TIME)?`); when that
fails the handler aborts with the error, nothing is handed to
`Server::send` — in particular the Request branch's fall-through NAK is
skipped because the error returns from `process` early. -/
theorem c10_lease_time_required_on_offer_ack :
    (∀ (pre : List SourceBehavior) (s : SourceBehavior) (post : List SourceBehavior)
        (p : InPacket) (r : DhcpSourceResult) (ip : Ipv4) (e : DhcpError),
      (∀ t ∈ pre, t.packetReceived = .ok () ∧ returnsSome t.offer = false) →
      s.packetReceived = .ok () → s.offer = .ok (some r) →
      r.client_ip_address = some ip →
      tryU32Option IP_ADDRESS_LEASE_TIME r.options = .error e →
      (processDiscover (pre ++ s :: post) p).2 = .error e
        ∧ sentPackets (processDiscover (pre ++ s :: post) p).1 = [])
    ∧ (∀ (pre : List SourceBehavior) (s : SourceBehavior) (post : List SourceBehavior)
        (p : InPacket) (r : DhcpSourceResult) (ip : Ipv4) (e : DhcpError),
      (∀ t ∈ pre, t.packetReceived = .ok () ∧ returnsSome t.reserve = false) →
      s.packetReceived = .ok () → s.reserve = .ok (some r) →
      r.client_ip_address = some ip →
      tryU32Option IP_ADDRESS_LEASE_TIME r.options = .error e →
      (processRequest (pre ++ s :: post) p).2 = .error e
        ∧ sentPackets (processRequest (pre ++ s :: post) p).1 = []) := by
  refine ⟨?_, ?_⟩
  · intro pre s post p r ip e hpre hrecv hph hip hlease
    have hq := queryLoop_skip (fun t => t.offer) (composeOffer p.mac) [] pre (s :: post) hpre
    have hcomp : composeOffer p.mac r = .error e := by
      simp [composeOffer, hip, hlease]
    have hloop : queryLoop (fun t => t.offer) (composeOffer p.mac) [] (s :: post)
        = ([.received s.id], .error e) := by
      simp [queryLoop, hrecv, hph, hcomp]
    simp only [processDiscover]
    rw [hq, hloop]
    exact ⟨rfl, by rw [sentPackets_append, sentPackets_skipEvents]; rfl⟩
  · intro pre s post p r ip e hpre hrecv hph hip hlease
    have hq := queryLoop_skip (fun t => t.reserve) (composeAck p.mac) [.udpSend .nak]
      pre (s :: post) hpre
    have hcomp : composeAck p.mac r = .error e := by
      simp [composeAck, hip, hlease]
    have hloop : queryLoop (fun t => t.reserve) (composeAck p.mac) [.udpSend .nak] (s :: post)
        = ([.received s.id], .error e) := by
      simp [queryLoop, hrecv, hph, hcomp]
    simp only [processRequest]
    rw [hq, hloop]
    exact ⟨rfl, by rw [sentPackets_append, sentPackets_skipEvents]; rfl⟩

/-! ## Concrete fixtures used by the witnesses -/

/-- A concrete inbound packet. -/
def pktW : InPacket := ⟨[0, 1, 2, 3, 4, 5]⟩

/-- A source whose phase methods return `Ok(None)`. -/
def srcNone : SourceBehavior :=
  ⟨0, .ok (), .ok none, .ok none, .ok none, .ok (), .ok (), .ok (), .ok ()⟩

/-- A source whose phase methods return errors. -/
def srcErr : SourceBehavior :=
  ⟨1, .ok (), .error .reqwestError, .error .reqwestError, .error .reqwestError,
   .error .reqwestError, .error .reqwestError, .ok (), .ok ()⟩

/-- A full result: client IP plus lease-time and subnet-mask options. -/
def resultFull : DhcpSourceResult :=
  ⟨some ⟨10, 0, 0, 5⟩, [.ipAddressLeaseTime 3600, .subnetMask ⟨255, 255, 255, 0⟩]⟩

/-- A source answering every query phase with `resultFull`. -/
def srcHit : SourceBehavior :=
  ⟨2, .ok (), .ok (some resultFull), .ok (some resultFull), .ok (some resultFull),
   .ok (), .ok (), .ok (), .ok ()⟩

/-- A result with options but no client IP. -/
def resultNoIp : DhcpSourceResult := ⟨none, [.ipAddressLeaseTime 3600]⟩

/-- A source answering every query phase with `resultNoIp`. -/
def srcNoIp : SourceBehavior :=
  ⟨3, .ok (), .ok (some resultNoIp), .ok (some resultNoIp), .ok (some resultNoIp),
   .ok (), .ok (), .ok (), .ok ()⟩

/-- A result with a client IP but no lease-time option. -/
def resultNoLease : DhcpSourceResult :=
  ⟨some ⟨10, 0, 0, 7⟩, [.subnetMask ⟨255, 255, 255, 0⟩]⟩

/-- A source answering every query phase with `resultNoLease`. -/
def srcNoLease : SourceBehavior :=
  ⟨4, .ok (), .ok (some resultNoLease), .ok (some resultNoLease), .ok (some resultNoLease),
   .ok (), .ok (), .ok (), .ok ()⟩

/-- Witness for C2 at a concrete source list. -/
theorem c2_request_nak_discover_inform_drop_witness :
    sentPackets (processRequest [srcNone, srcErr] pktW).1 = [.nak]
      ∧ (processRequest [srcNone, srcErr] pktW).2 = .ok () :=
  c2_request_nak_discover_inform_drop.1 [srcNone, srcErr] pktW (by decide)

/-- Witness for C3 at a concrete source list. -/
theorem c3_client_ip_missing_fails_packet_witness :
    (processDiscover ([srcNone, srcErr] ++ srcNoIp :: [srcHit]) pktW).2
        = .error (.clientIpAddressMissing pktW.mac)
      ∧ sentPackets (processDiscover ([srcNone, srcErr] ++ srcNoIp :: [srcHit]) pktW).1 = [] :=
  c3_client_ip_missing_fails_packet.1 [srcNone, srcErr] srcNoIp [srcHit] pktW resultNoIp
    (by decide) rfl rfl rfl (by decide)

/-- Witness for C7 at a concrete source list. -/
theorem c7_first_some_wins_after_skips_witness :
    processDiscover ([srcNone, srcErr] ++ srcHit :: [srcNoIp]) pktW =
      (skipEvents (fun t => t.offer) [srcNone, srcErr] ++
        [.received srcHit.id, .sending srcHit.id,
         .udpSend (.offer 3600 ⟨10, 0, 0, 5⟩ none none resultFull.options),
         .sent srcHit.id], .ok ()) :=
  c7_first_some_wins_after_skips.1 [srcNone, srcErr] srcHit [srcNoIp] pktW resultFull
    (.offer 3600 ⟨10, 0, 0, 5⟩ none none resultFull.options)
    (by decide) rfl rfl rfl rfl rfl

/-- Witness for C10 at a concrete source list. -/
theorem c10_lease_time_required_on_offer_ack_witness :
    (processRequest ([srcNone] ++ srcNoLease :: []) pktW).2 = .error .dhcpLibError
      ∧ sentPackets (processRequest ([srcNone] ++ srcNoLease :: []) pktW).1 = [] :=
  c10_lease_time_required_on_offer_ack.2 [srcNone] srcNoLease [] pktW resultNoLease
    ⟨10, 0, 0, 7⟩ .dhcpLibError (by decide) rfl rfl rfl rfl

/-- C8 counterexample: the claim says every configured source receives
`packet_received` and the release/decline call unconditionally, one
source's error notwithstanding.  Concretely, with two sources where the
first one's `release` fails, the loop aborts through `?` (server.rs lines
185-186) and the second source (id 0) receives neither call. -/
theorem c8_counterexample_error_stops_release_loop :
    processRelease [srcErr, srcNone] = ([.received 1, .releaseCalled 1], .error .reqwestError)
    ∧ SrvEvent.received 0 ∉ (processRelease [srcErr, srcNone]).1
    ∧ SrvEvent.releaseCalled 0 ∉ (processRelease [srcErr, srcNone]).1 :=
  ⟨rfl, by decide, by decide⟩

/-- C8 (amended): for RELEASE and DECLINE the sources are iterated in
order, each receiving `packet_received` followed by the release/decline
call, but only while every call succeeds: the first error aborts the
packet's handling with that error and later sources receive no calls; when
no call errors, every source receives both calls. -/
theorem c8_amended_release_decline_until_first_error :
    (∀ (pre : List SourceBehavior) (s : SourceBehavior) (post : List SourceBehavior)
        (e : DhcpError),
      (∀ t ∈ pre, t.packetReceived = .ok () ∧ t.release = .ok ()) →
      s.packetReceived = .ok () → s.release = .error e →
      processRelease (pre ++ s :: post) =
        (releaseEvents pre ++ [.received s.id, .releaseCalled s.id], .error e))
    ∧ (∀ (sources : List SourceBehavior),
      (∀ t ∈ sources, t.packetReceived = .ok () ∧ t.release = .ok ()) →
      processRelease sources = (releaseEvents sources, .ok ()))
    ∧ (∀ (pre : List SourceBehavior) (s : SourceBehavior) (post : List SourceBehavior)
        (e : DhcpError),
      (∀ t ∈ pre, t.packetReceived = .ok () ∧ t.decline = .ok ()) →
      s.packetReceived = .ok () → s.decline = .error e →
      processDecline (pre ++ s :: post) =
        (declineEvents pre ++ [.received s.id, .declineCalled s.id], .error e))
    ∧ (∀ (sources : List SourceBehavior),
      (∀ t ∈ sources, t.packetReceived = .ok () ∧ t.decline = .ok ()) →
      processDecline sources = (declineEvents sources, .ok ())) := by
  refine ⟨?_, ?_, ?_, ?_⟩
  · intro pre s post e hpre hrecv herr
    rw [processRelease_skip pre (s :: post) hpre]
    have hloop : processRelease (s :: post) = ([.received s.id, .releaseCalled s.id], .error e) := by
      simp [processRelease, hrecv, herr]
    rw [hloop]
  · intro sources h
    have hq := processRelease_skip sources [] h
    rw [List.append_nil] at hq
    rw [hq]
    simp [processRelease]
  · intro pre s post e hpre hrecv herr
    rw [processDecline_skip pre (s :: post) hpre]
    have hloop : processDecline (s :: post) = ([.received s.id, .declineCalled s.id], .error e) := by
      simp [processDecline, hrecv, herr]
    rw [hloop]
  · intro sources h
    have hq := processDecline_skip sources [] h
    rw [List.append_nil] at hq
    rw [hq]
    simp [processDecline]

/-- Witness for the amended C8 at a concrete source list. -/
theorem c8_amended_release_decline_until_first_error_witness :
    processRelease ([srcNone] ++ srcErr :: [srcHit]) =
      (releaseEvents [srcNone] ++ [.received srcErr.id, .releaseCalled srcErr.id],
       .error .reqwestError) :=
  c8_amended_release_decline_until_first_error.1 [srcNone] srcErr [srcHit] .reqwestError
    (by decide) rfl rfl

/-- Looking up a key right after inserting it yields the inserted entry. -/
theorem cacheLookup_cacheInsert_self {J : Type} (key : String × String) (e : J × Nat)
    (l : List ((String × String) × J × Nat)) : cacheLookup key (cacheInsert key e l) = some e := by
  simp [cacheInsert, cacheLookup]

/-- Looking up a key right after removing it yields nothing. -/
theorem cacheLookup_cacheRemove_self {J : Type} (key : String × String)
    (l : List ((String × String) × J × Nat)) : cacheLookup key (cacheRemove key l) = none := by
  induction l with
  | nil => rfl
  | cons x xs ih =>
    obtain ⟨k, e⟩ := x
    by_cases hk : k = key
    · simp [cacheRemove, hk, ih]
    · simp [cacheRemove, cacheLookup, hk, ih]

/-- C4: the three cache facts.  (1) A `json` call is answered without a
network request exactly when the cache holds an entry under (method, URL)
whose age `now - time` is at most `expiration` (`expired` is
`now > time + duration`, rest.rs line 107).  (2) A call that finds an
expired entry evicts it and performs the HTTP request; afterwards the key
maps to the freshly inserted response when `expiration > 0` and to nothing
otherwise.  (3) With `expiration = 0`, starting from the empty cache every
call in any sequence performs the HTTP request (nothing is ever served from
the cache) and the cache stays empty (nothing is ever inserted). -/
theorem c4_cache_expiration_semantics :
    (∀ (J : Type) (st : DhcpRestSourceHttp J) (m u : String) (now : Nat) (resp : J),
      (st.json m u now resp).didHttpRequest = false ↔
        ∃ d t, cacheLookup (m, u) st.cache = some (d, t) ∧ now - t ≤ st.expiration)
    ∧ (∀ (J : Type) (st : DhcpRestSourceHttp J) (m u : String) (now : Nat) (resp : J)
        (d : J) (t : Nat),
      cacheLookup (m, u) st.cache = some (d, t) →
      cacheItemExpired t st.expiration now = true →
      (st.json m u now resp).didHttpRequest = true
        ∧ cacheLookup (m, u) (st.json m u now resp).state.cache
            = (if 0 < st.expiration then some (resp, now) else none))
    ∧ (∀ (J : Type) (st : DhcpRestSourceHttp J) (accs : List ((String × String) × Nat × J)),
      st.expiration = 0 → st.cache = [] →
      (runJson st accs).1.cache = [] ∧ ∀ b ∈ (runJson st accs).2, b = true) := by
  refine ⟨?_, ?_, ?_⟩
  · intro J st m u now resp
    cases hl : cacheLookup (m, u) st.cache with
    | none => simp [DhcpRestSourceHttp.json, hl]
    | some p =>
      obtain ⟨d, t⟩ := p
      by_cases hexp : t + st.expiration < now
      · have : cacheItemExpired t st.expiration now = true := by
          simp [cacheItemExpired, hexp]
        simp only [DhcpRestSourceHttp.json, hl, this]
        constructor
        · intro hfalse; simp at hfalse
        · rintro ⟨d', t', hd, hle⟩
          cases hd
          exfalso
          omega
      · have : cacheItemExpired t st.expiration now = false := by
          simp [cacheItemExpired]; omega
        simp only [DhcpRestSourceHttp.json, hl, this]
        constructor
        · intro _
          exact ⟨d, t, rfl, by omega⟩
        · intro _
          simp
  · intro J st m u now resp d t hl hexp
    simp only [DhcpRestSourceHttp.json, hl, hexp]
    constructor
    · simp
    · by_cases h0 : 0 < st.expiration
      · simp [h0, cacheLookup_cacheInsert_self]
      · simp [h0, cacheLookup_cacheRemove_self]
  · intro J st accs hexp hcache
    induction accs generalizing st with
    | nil => exact ⟨hcache, by intro b hb; simp [runJson] at hb⟩
    | cons a rest ih =>
      obtain ⟨⟨m, u⟩, now, resp⟩ := a
      have hstep : st.json m u now resp = ⟨resp, st, true⟩ := by
        simp [DhcpRestSourceHttp.json, hcache, cacheLookup, hexp]
      have := ih st hexp hcache
      simp only [runJson, hstep]
      refine ⟨this.1, ?_⟩
      intro b hb
      simp only [List.mem_cons] at hb
      cases hb with
      | inl h => exact h
      | inr h => exact this.2 b h

/-- Witness for C4: parts applied at a concrete cache.  The cache holds an
entry inserted at time 100 with expiration 5; at time 103 the entry is
served without a request; at time 110 it is expired, a request happens and
the key holds the fresh response; with expiration 0 a two-access run makes
two requests and ends with an empty cache. -/
theorem c4_cache_expiration_semantics_witness :
    (((⟨[(("GET", "http://a"), 7, 100)], 5⟩ : DhcpRestSourceHttp Nat).json
        "GET" "http://a" 103 42).didHttpRequest = false ↔
      ∃ d t, cacheLookup ("GET", "http://a")
          (⟨[(("GET", "http://a"), 7, 100)], 5⟩ : DhcpRestSourceHttp Nat).cache = some (d, t)
        ∧ 103 - t ≤ 5)
    ∧ ((((⟨[(("GET", "http://a"), 7, 100)], 5⟩ : DhcpRestSourceHttp Nat).json
          "GET" "http://a" 110 42).didHttpRequest = true)
        ∧ cacheLookup ("GET", "http://a")
            ((⟨[(("GET", "http://a"), 7, 100)], 5⟩ : DhcpRestSourceHttp Nat).json
              "GET" "http://a" 110 42).state.cache
          = (if 0 < (5 : Nat) then some (42, 110) else none))
    ∧ ((runJson (⟨[], 0⟩ : DhcpRestSourceHttp Nat)
          [(("GET", "http://a"), 100, 7), (("GET", "http://a"), 101, 8)]).1.cache = []
        ∧ ∀ b ∈ (runJson (⟨[], 0⟩ : DhcpRestSourceHttp Nat)
            [(("GET", "http://a"), 100, 7), (("GET", "http://a"), 101, 8)]).2, b = true) :=
  ⟨c4_cache_expiration_semantics.1 Nat ⟨[(("GET", "http://a"), 7, 100)], 5⟩ "GET" "http://a" 103 42,
   c4_cache_expiration_semantics.2.1 Nat ⟨[(("GET", "http://a"), 7, 100)], 5⟩ "GET" "http://a"
     110 42 7 100 rfl (by decide),
   c4_cache_expiration_semantics.2.2 Nat ⟨[], 0⟩
     [(("GET", "http://a"), 100, 7), (("GET", "http://a"), 101, 8)] rfl rfl⟩

/-- C6 counterexample: a `client_ip_address` entry that is not marked
`required: true` (its value is a bare string, so `is_required` is false)
and whose value fails to deserialize as an IPv4 address fails the whole
phase — `context_to_result` propagates the error with `?` (rest.rs lines
345-348) — contradicting the claim that failures of non-required entries
never fail the phase. -/
theorem c6_counterexample_client_ip_deser_fails_phase :
    isRequired (.string "not-an-ip") = false
    ∧ contextToResult renderVerbatim yamlParseScalar (fun _ _ => .error .dhcpLibError)
        [("client_ip_address", .string "not-an-ip")] = .error .serdeYamlError := by
  constructor
  · rfl
  · have htv : templateValues renderVerbatim yamlParseScalar (.string "not-an-ip")
        = .ok (.string "not-an-ip") := by
      simp only [templateValues]
      rfl
    have hstep : contextStep renderVerbatim yamlParseScalar (fun _ _ => .error .dhcpLibError)
        (none, []) ("client_ip_address", .string "not-an-ip") = .error .serdeYamlError := by
      simp only [contextStep, htv]
      rfl
    simp only [contextToResult, List.foldlM, hstep]
    rfl

/-- C6 (amended): for every mapping entry not marked `required: true`
whose name is not `client_ip_address`, a template-expansion failure or a
deserialization failure never fails the step — the state is returned
unchanged, so the option set merely omits the entry — while the same
failure on a `required: true` entry, and a deserialization failure of a
`client_ip_address` entry even without `required: true`, fail the entire
phase. -/
theorem c6_amended_non_required_skipped_client_ip_fatal :
    (∀ (render : String → Except DhcpError String)
        (parse : String → Except DhcpError YamlValue)
        (deser : String → YamlValue → Except DhcpError DhcpOption)
        (st : Option Ipv4 × List DhcpOption) (k : String) (v : YamlValue),
      k ≠ "client_ip_address" → isRequired v = false →
      (∃ st', contextStep render parse deser st (k, v) = .ok st')
      ∧ (∀ e, templateValues render parse v = .error e →
          contextStep render parse deser st (k, v) = .ok st)
      ∧ (∀ v' e, templateValues render parse v = .ok v' → deser k v' = .error e →
          contextStep render parse deser st (k, v) = .ok st))
    ∧ (∀ (render : String → Except DhcpError String)
        (parse : String → Except DhcpError YamlValue)
        (deser : String → YamlValue → Except DhcpError DhcpOption)
        (st : Option Ipv4 × List DhcpOption) (k : String) (v : YamlValue) (e : DhcpError),
      isRequired v = true → templateValues render parse v = .error e →
      contextStep render parse deser st (k, v) = .error e)
    ∧ (∀ (render : String → Except DhcpError String)
        (parse : String → Except DhcpError YamlValue)
        (deser : String → YamlValue → Except DhcpError DhcpOption)
        (st : Option Ipv4 × List DhcpOption) (k : String) (v v' : YamlValue) (e : DhcpError),
      k ≠ "client_ip_address" → isRequired v = true →
      templateValues render parse v = .ok v' → deser k v' = .error e →
      contextStep render parse deser st (k, v) = .error e)
    ∧ (∀ (render : String → Except DhcpError String)
        (parse : String → Except DhcpError YamlValue)
        (deser : String → YamlValue → Except DhcpError DhcpOption)
        (st : Option Ipv4 × List DhcpOption) (v v' : YamlValue) (e : DhcpError),
      templateValues render parse v = .ok v' → parseIpv4 v' = .error e →
      contextStep render parse deser st ("client_ip_address", v) = .error e)
    ∧ (∀ (render : String → Except DhcpError String)
        (parse : String → Except DhcpError YamlValue)
        (deser : String → YamlValue → Except DhcpError DhcpOption)
        (pre : List (String × YamlValue)) (entry : String × YamlValue)
        (rest : List (String × YamlValue)) (st : Option Ipv4 × List DhcpOption) (e : DhcpError),
      List.foldlM (contextStep render parse deser) (none, []) pre = .ok st →
      contextStep render parse deser st entry = .error e →
      contextToResult render parse deser (pre ++ entry :: rest) = .error e) := by
  refine ⟨?_, ?_, ?_, ?_, ?_⟩
  · intro render parse deser st k v hk hreq
    refine ⟨?_, ?_, ?_⟩
    · cases htv : templateValues render parse v with
      | error e => exact ⟨st, by simp [contextStep, htv, hreq]⟩
      | ok v' =>
        cases hd : deser k v' with
        | ok o => exact ⟨(st.1, upsert o st.2), by simp [contextStep, htv, hk, hd]⟩
        | error e => exact ⟨st, by simp [contextStep, htv, hk, hd, hreq]⟩
    · intro e htv
      simp [contextStep, htv, hreq]
    · intro v' e htv hd
      simp [contextStep, htv, hk, hd, hreq]
  · intro render parse deser st k v e hreq htv
    simp [contextStep, htv, hreq]
  · intro render parse deser st k v v' e hk hreq htv hd
    simp [contextStep, htv, hk, hd, hreq]
  · intro render parse deser st v v' e htv hip
    simp [contextStep, htv, hip]
  · intro render parse deser pre entry rest st e hpre hstep
    have h1 : List.foldlM (contextStep render parse deser)
        ((none : Option Ipv4), ([] : List DhcpOption)) (pre ++ entry :: rest) = .error e := by
      rw [List.foldlM_append, hpre]
      show List.foldlM (contextStep render parse deser) st (entry :: rest) = .error e
      rw [List.foldlM_cons, hstep]
      rfl
    simp only [contextToResult, h1]
    rfl

/-- Witness for the amended C6: the failure-propagation part applied at a
concrete mapping whose sole entry is a bad `client_ip_address`. -/
theorem c6_amended_non_required_skipped_client_ip_fatal_witness :
    contextToResult renderVerbatim yamlParseScalar (fun _ _ => .error .dhcpLibError)
        ([] ++ ("client_ip_address", .string "bad") :: []) = .error .serdeYamlError :=
  c6_amended_non_required_skipped_client_ip_fatal.2.2.2.2 renderVerbatim yamlParseScalar
    (fun _ _ => .error .dhcpLibError) [] ("client_ip_address", .string "bad") [] (none, [])
    .serdeYamlError rfl
    (by
      have htv : templateValues renderVerbatim yamlParseScalar (.string "bad")
          = .ok (.string "bad") := by
        simp only [templateValues]
        rfl
      simp only [contextStep, htv]
      rfl)

/-! The string leaves of a structured value: the positions that
`template_values` renders and re-parses; mapping keys are not leaves. -/

mutual

def stringLeaves : YamlValue → List String
  | .string s => [s]
  | .sequence l => stringLeavesList l
  | .mapping l => stringLeavesPairs l
  | _ => []

def stringLeavesList : List YamlValue → List String
  | [] => []
  | x :: xs => stringLeaves x ++ stringLeavesList xs

def stringLeavesPairs : List (YamlValue × YamlValue) → List String
  | [] => []
  | (_, v) :: xs => stringLeaves v ++ stringLeavesPairs xs

end

/-- C9 counterexample: the template-free string value `"123"` is not left
unchanged by `template_values` — after rendering verbatim, the text is
re-parsed with `serde_yaml::from_str` (rest.rs line 34) and becomes the
number 123. -/
theorem c9_counterexample_reparse_changes_value :
    templateValues renderVerbatim yamlParseScalar (.string "123")
      = .ok (.number (.posInt 123))
    ∧ YamlValue.string "123" ≠ YamlValue.number (.posInt 123) := by
  constructor
  · simp only [templateValues]
    rfl
  · intro h
    exact YamlValue.noConfusion h

/-- C9 (amended): template expansion leaves a value unchanged provided
every one of its string leaves renders verbatim (no template syntax) and
re-parses as itself under YAML parsing; a template-free string leaf that
YAML-parses as a different value (such as `"123"`) is replaced by the
parse result, so expansion is not the identity on all template-free
values. -/
theorem c9_amended_idempotent_on_parse_stable_values :
    ∀ (render : String → Except DhcpError String)
      (parse : String → Except DhcpError YamlValue) (v : YamlValue),
      (∀ s ∈ stringLeaves v, render s = .ok s ∧ parse s = .ok (.string s)) →
      templateValues render parse v = .ok v := by
  intro render parse v h
  refine templateValues.induct render parse
    (fun v => (∀ s ∈ stringLeaves v, render s = .ok s ∧ parse s = .ok (.string s)) →
      templateValues render parse v = .ok v)
    (fun l => (∀ s ∈ stringLeavesPairs l, render s = .ok s ∧ parse s = .ok (.string s)) →
      templateValuesPairs render parse l = .ok l)
    (fun l => (∀ s ∈ stringLeavesList l, render s = .ok s ∧ parse s = .ok (.string s)) →
      templateValuesList render parse l = .ok l)
    ?_ ?_ ?_ ?_ ?_ ?_ ?_ ?_ v h
  · intro s hs
    obtain ⟨hr, hp⟩ := hs s (by simp [stringLeaves])
    simp only [templateValues]
    rw [hr]
    exact hp
  · intro l ih hl
    simp only [stringLeaves] at hl
    simp only [templateValues, ih hl]
    rfl
  · intro l ih hl
    simp only [stringLeaves] at hl
    simp only [templateValues, ih hl]
    rfl
  · intro v hs hsq hm _
    cases v with
    | string s => exact absurd rfl (hs s)
    | sequence l => exact absurd rfl (hsq l)
    | mapping l => exact absurd rfl (hm l)
    | null =>
      simp only [templateValues]
      rfl
    | bool b =>
      simp only [templateValues]
      rfl
    | number n =>
      simp only [templateValues]
      rfl
  · intro _
    rfl
  · intro x xs ihx ihxs hl
    simp only [stringLeavesList] at hl
    have h1 := ihx fun s hs => hl s (List.mem_append_left _ hs)
    have h2 := ihxs fun s hs => hl s (List.mem_append_right _ hs)
    simp only [templateValuesList, h1, h2]
    rfl
  · intro _
    rfl
  · intro k v xs ihv ihxs hl
    simp only [stringLeavesPairs] at hl
    have h1 := ihv fun s hs => hl s (List.mem_append_left _ hs)
    have h2 := ihxs fun s hs => hl s (List.mem_append_right _ hs)
    simp only [templateValuesPairs, h1, h2]
    rfl

/-- Witness for the amended C9 at a concrete template-free value whose
string leaf re-parses as itself. -/
theorem c9_amended_idempotent_on_parse_stable_values_witness :
    templateValues renderVerbatim yamlParseScalar
        (.sequence [.null, .bool true, .string "abc"])
      = .ok (.sequence [.null, .bool true, .string "abc"]) :=
  c9_amended_idempotent_on_parse_stable_values renderVerbatim yamlParseScalar
    (.sequence [.null, .bool true, .string "abc"])
    (by
      intro s hs
      simp only [stringLeaves, stringLeavesList, List.append_nil, List.nil_append,
        List.mem_singleton] at hs
      subst hs
      exact ⟨rfl, rfl⟩)

end DhcpServer
